import Mathlib

/-!
Verification of the LinkChat backend room-lifecycle and messaging core.

This development shallowly embeds the room lifecycle state machine, the
auto-vanish worker, the message ingest pipeline, the rate limiter and the
nickname registry of the LinkChat backend, and proves (or refutes) the
properties its specification states about them.

Conventions of the embedding:
- timestamps are integer milliseconds (`Int`), matching `Date.now()`;
- database documents become Lean structures; an absent document field is
  `Option.none`; Mongo's `isEnded: { $ne: true }` becomes a `Bool` that is
  `false` when the field is unset;
- the document store is a `List` of records, and queries are `filter`/`find?`
  over it, mirroring the Mongoose calls;
- asynchronous control flow is modelled by explicit traces: a routine's
  I/O side effects become a list of stages, where the steps inside one stage
  are issued concurrently (`Promise.all`) and distinct stages are separated
  by an `await`.
-/

namespace LinkChat

/-! ## Data model: Room and Message records -/

/-- A room document, as stored by `RoomModel` (`src/models/Room`).
Fields not consulted by any verified operation are omitted. -/
structure RoomRec where
  code : String
  ownerId : Option String
  name : Option String
  isPublic : Bool
  isLocked : Bool
  lockedAt : Option Int
  isEnded : Bool
  expiresAt : Int
  participants : List String
  deriving DecidableEq, Repr

/-- Message kind stored in the database: the schema only admits
text and file (the image sub-kind is a presentation-layer refinement). -/
inductive MsgType where
  | text
  | file
  deriving DecidableEq, Repr

/-- File metadata attached to a file message. -/
structure FileMeta where
  name : String
  size : Nat
  url : String
  mimeType : String
  deriving DecidableEq, Repr

/-- A message document, as stored by `MessageModel` (`src/models/Message`). -/
structure MsgRec where
  id : String
  roomCode : String
  userId : String
  nickname : String
  content : String
  type : MsgType
  fileMeta : Option FileMeta
  deletedByAdmin : Bool
  createdAt : Int
  deriving DecidableEq, Repr

/-! ## Deletion-path traces (claim C1)

Every room-deletion routine in the source performs a fixed sequence of
externally visible steps.  We record each routine's steps as a list of
stages: steps inside the same stage are issued concurrently (the source
wraps them in one `Promise.all`), and one stage completes before the next
begins (the source `await`s between them). -/

/-- One externally visible step of a room-deletion routine. -/
inductive DelStep where
  | files
  | messages
  | roomRecord
  | redisKeys
  | notify
  | broadcast
  | disconnect
  | systemMsg
  | audit
  deriving DecidableEq, Repr

instance : BEq DelStep := ⟨fun a b => decide (a = b)⟩

/-- Index of the stage in which a step is issued, if it is issued at all. -/
def stageOf (t : List (List DelStep)) (s : DelStep) : Option Nat :=
  t.findIdx? (fun stage => stage.contains s)

/-- Step `a` is issued in a strictly earlier stage than step `b`. -/
def strictlyBefore (t : List (List DelStep)) (a b : DelStep) : Bool :=
  match stageOf t a, stageOf t b with
  | some i, some j => decide (i < j)
  | _, _ => false

/-- Steps `a` and `b` are issued concurrently: same `Promise.all` stage. -/
def sameStage (t : List (List DelStep)) (a b : DelStep) : Bool :=
  match stageOf t a, stageOf t b with
  | some i, some j => decide (i = j)
  | _, _ => false

/-- The trace contains the step at all. -/
def containsStep (t : List (List DelStep)) (s : DelStep) : Bool :=
  (stageOf t s).isSome

/-- The deletion ordering the specification asserts for every path:
files strictly before messages, messages strictly before the room record,
the room record strictly before the ephemeral-store keys, and those before
the audit/analytics notification. -/
def followsDeletionOrder (t : List (List DelStep)) : Bool :=
  strictlyBefore t .files .messages &&
  strictlyBefore t .messages .roomRecord &&
  strictlyBefore t .roomRecord .redisKeys &&
  strictlyBefore t .redisKeys .notify

/-- Trace of `permanentlyDeleteRoom` (`autoVanishService.ts`): delete files,
then all messages, then the room record, then the Redis keys, each awaited. -/
def permanentlyDeleteRoomTrace : List (List DelStep) :=
  [[.files], [.messages], [.roomRecord], [.redisKeys]]

/-- Trace of one room's deletion inside `processAutoVanish` /
`recoverStuckRooms`: `permanentlyDeleteRoom`, then the admin insight
notification (`emitAdminInsightUpdate`) after it succeeds. -/
def autoVanishDeletionTrace : List (List DelStep) :=
  permanentlyDeleteRoomTrace ++ [[.notify]]

/-- Trace of `adminVanishRoom` (`adminRoomService`): system message,
vanish broadcast, force disconnect, then files, messages, room record,
Redis keys, the audit record, and the insight notification, each awaited. -/
def adminVanishDeletionTrace : List (List DelStep) :=
  [[.systemMsg], [.broadcast], [.disconnect], [.files],
   [.messages], [.roomRecord], [.redisKeys], [.audit], [.notify]]

/-- Trace of the `destroy_room` socket handler: delete all messages, delete
the room record, broadcast `room_destroyed`, force disconnect, then Redis
cleanup.  The handler never deletes the room's files and emits no
audit/analytics notification. -/
def destroyRoomDeletionTrace : List (List DelStep) :=
  [[.messages], [.roomRecord], [.broadcast], [.disconnect], [.redisKeys]]

/-- Trace of the `admin_end_room` socket handler: system message, files,
messages, room record, vanish broadcast, disconnect, Redis keys, insight
notification. -/
def adminEndRoomDeletionTrace : List (List DelStep) :=
  [[.systemMsg], [.files], [.messages], [.roomRecord],
   [.broadcast], [.disconnect], [.redisKeys], [.notify]]

/-- Trace of `cleanupExpiredRooms` (the natural-expiry sweep): files for all
expired rooms first, then `Promise.all([RoomModel.deleteMany, MessageModel.deleteMany])`
issues the room-record deletion and the message deletion concurrently,
then Redis cleanup. -/
def cleanupExpiredDeletionTrace : List (List DelStep) :=
  [[.files], [.roomRecord, .messages], [.redisKeys]]

/-- The four deletion paths the specification's ordering rule ranges over:
auto-vanish/recovery deletion, owner-triggered destroy, administrator
vanish, and the natural-expiry sweep. -/
def roomDeletionPathTraces : List (List (List DelStep)) :=
  [autoVanishDeletionTrace, destroyRoomDeletionTrace,
   adminVanishDeletionTrace, cleanupExpiredDeletionTrace]

/-- C1: the claimed ordering rule does not hold on every deletion path.
The owner-triggered `destroy_room` path has no file-deletion step at all
(so its room record is deleted without the room's files ever being deleted,
and `files strictly-before messages` fails), and the natural-expiry sweep
issues the room-record deletion and the message deletion concurrently in
one `Promise.all`, so the room record is not deleted strictly after the
messages there either. -/
theorem del_order_counterexample :
    roomDeletionPathTraces.all followsDeletionOrder = false ∧
    followsDeletionOrder destroyRoomDeletionTrace = false ∧
    containsStep destroyRoomDeletionTrace .files = false ∧
    strictlyBefore cleanupExpiredDeletionTrace .messages .roomRecord = false ∧
    sameStage cleanupExpiredDeletionTrace .messages .roomRecord = true := by
  decide

/-- C1 (amended): the auto-vanish/recovery deletion routine and the
administrator vanish observe the full ordering files → messages → room
record → ephemeral-store keys → audit/analytics notification.  The
owner-triggered destroy deletes messages strictly before the room record
but contains no file-deletion step and no audit/analytics step, and its
Redis cleanup happens after the destroy broadcast.  The natural-expiry
sweep deletes files strictly before both the messages and the room record,
but issues the message deletion and the room-record deletion concurrently,
and cleans Redis keys after both. -/
theorem del_order_amended :
    followsDeletionOrder autoVanishDeletionTrace = true ∧
    followsDeletionOrder adminVanishDeletionTrace = true ∧
    (strictlyBefore adminVanishDeletionTrace .redisKeys .audit &&
     strictlyBefore adminVanishDeletionTrace .audit .notify) = true ∧
    strictlyBefore destroyRoomDeletionTrace .messages .roomRecord = true ∧
    containsStep destroyRoomDeletionTrace .files = false ∧
    containsStep destroyRoomDeletionTrace .notify = false ∧
    strictlyBefore destroyRoomDeletionTrace .broadcast .redisKeys = true ∧
    strictlyBefore cleanupExpiredDeletionTrace .files .messages = true ∧
    strictlyBefore cleanupExpiredDeletionTrace .files .roomRecord = true ∧
    sameStage cleanupExpiredDeletionTrace .messages .roomRecord = true ∧
    strictlyBefore cleanupExpiredDeletionTrace .roomRecord .redisKeys = true ∧
    followsDeletionOrder adminEndRoomDeletionTrace = true := by
  decide

/-! ## Owner-triggered destroy and its authorization (claim C2) -/

/-- The durable store visible to the destroy handlers. -/
structure ChatState where
  rooms : List RoomRec
  messages : List MsgRec
  deriving DecidableEq, Repr

/-- `getRoomByCode` of `roomService`: `RoomModel.findOne proj code`. -/
def getRoomByCode (st : ChatState) (code : String) : Option RoomRec :=
  st.rooms.find? (fun r => r.code == code)

/-- The payload that `verifyToken` (`utils/jwt`) extracts from a room token
when the JWT signature verification succeeds.  A token string that fails
verification is modelled as `Option.none`. -/
structure TokenPayload where
  roomCode : String
  deriving DecidableEq, Repr

/-- `verifyRoomToken` of `roomService`: the token must decode under the
server secret and its embedded `roomCode` must equal the target room code.
The caller's user identifier plays no part. -/
def verifyRoomToken (decoded : Option TokenPayload) (code : String) : Bool :=
  if code.isEmpty then false
  else
    match decoded with
    | some payload => payload.roomCode == code
    | none => false

/-- Outcome of a destroy/close handler invocation. -/
inductive DestroyOutcome where
  | notFound
  | unauthorized
  | destroyed
  deriving DecidableEq, Repr

/-- The guard of the `destroy_room` handler: `room.ownerId` and the
handshake auth userId must both be truthy (present and non-empty) and
strictly equal. -/
def destroyRoomAuthorized (room : RoomRec) (authUserId : Option String) : Bool :=
  match room.ownerId, authUserId with
  | some owner, some auth => !owner.isEmpty && !auth.isEmpty && owner == auth
  | _, _ => false

/-- Deletion effect shared by the destroy handlers: remove the room's
messages and the room record from the durable store. -/
def deleteRoomAndMessages (st : ChatState) (code : String) : ChatState :=
  { rooms := st.rooms.filter (fun r => r.code != code),
    messages := st.messages.filter (fun m => m.roomCode != code) }

/-- The `destroy_room` socket handler (`socket/handlers.ts`): fetch the
room, apply the strict owner guard, and on success delete the messages and
the room record.  On any rejection the store is untouched. -/
def destroyRoomHandler (st : ChatState) (targetRoomId : String)
    (authUserId : Option String) : ChatState × DestroyOutcome :=
  match getRoomByCode st targetRoomId with
  | none => (st, .notFound)
  | some room =>
    if destroyRoomAuthorized room authUserId then
      (deleteRoomAndMessages st targetRoomId, .destroyed)
    else
      (st, .unauthorized)

/-- The legacy `admin_close_room` socket handler (`socket/handlers.ts`):
fetch the room, then authorize with `verifyRoomToken` alone — the caller's
persistent identifier is never compared to `ownerId` — and on success
delete the messages and the room record. -/
def adminCloseRoomHandler (st : ChatState) (userRoomCode : String)
    (decodedToken : Option TokenPayload) : ChatState × DestroyOutcome :=
  match getRoomByCode st userRoomCode with
  | none => (st, .notFound)
  | some _ =>
    if verifyRoomToken decodedToken userRoomCode then
      (deleteRoomAndMessages st userRoomCode, .destroyed)
    else
      (st, .unauthorized)

/-- A concrete room owned by `"alice"`, used in counterexamples. -/
def aliceRoom : RoomRec :=
  { code := "1234", ownerId := some "alice", name := none, isPublic := false,
    isLocked := false, lockedAt := none, isEnded := false,
    expiresAt := 1700003600000, participants := ["alice", "mallory"] }

/-- A one-room store with one message, used in counterexamples. -/
def aliceState : ChatState :=
  { rooms := [aliceRoom],
    messages := [{ id := "m1", roomCode := "1234", userId := "alice",
                   nickname := "Alice", content := "hello", type := .text,
                   fileMeta := none, deletedByAdmin := false,
                   createdAt := 1700000000000 }] }

/-- C2: token-only authentication is accepted on a path that performs the
destructive deletion.  The legacy `admin_close_room` handler deletes the
room and its messages for a caller (`"mallory"`) whose persistent
identifier differs from the room's `ownerId` (`"alice"`), because its guard
only checks that the presented room token decodes to the room's code. -/
theorem destroy_auth_counterexample :
    (adminCloseRoomHandler aliceState "1234" (some { roomCode := "1234" })).2
        = .destroyed ∧
    (adminCloseRoomHandler aliceState "1234" (some { roomCode := "1234" })).1.rooms
        = [] ∧
    (adminCloseRoomHandler aliceState "1234" (some { roomCode := "1234" })).1.messages
        = [] ∧
    aliceRoom.ownerId = some "alice" ∧
    ("mallory" : String) ≠ "alice" := by
  refine ⟨by decide, by decide, by decide, rfl, by decide⟩

/-- C2 (amended): the `destroy_room` handler does enforce the claim — it
deletes only when the caller's persistent identifier is present, non-empty
and strictly equal to the room's stored `ownerId`, and on any rejection the
room and its messages are unchanged — but the legacy `admin_close_room`
handler instead deletes whenever the presented token decodes to the room's
code, independently of the caller's identifier. -/
theorem destroy_auth_amended (st : ChatState) (roomId : String)
    (authUserId : Option String) (decodedToken : Option TokenPayload) :
    ((destroyRoomHandler st roomId authUserId).2 = .destroyed ↔
      ∃ room, getRoomByCode st roomId = some room ∧
        destroyRoomAuthorized room authUserId = true) ∧
    ((destroyRoomHandler st roomId authUserId).2 ≠ .destroyed →
      (destroyRoomHandler st roomId authUserId).1 = st) ∧
    (∀ room, getRoomByCode st roomId = some room →
      destroyRoomAuthorized room authUserId = true →
        room.ownerId = authUserId) ∧
    ((adminCloseRoomHandler st roomId decodedToken).2 = .destroyed ↔
      (getRoomByCode st roomId).isSome = true ∧
        verifyRoomToken decodedToken roomId = true) := by
  refine ⟨?_, ?_, ?_, ?_⟩
  · unfold destroyRoomHandler
    cases hfind : getRoomByCode st roomId with
    | none => simp
    | some room =>
      by_cases hauth : destroyRoomAuthorized room authUserId = true
      · simp [hauth]
      · simp only [Bool.not_eq_true] at hauth
        simp [hauth]
  · unfold destroyRoomHandler
    cases hfind : getRoomByCode st roomId with
    | none => simp
    | some room =>
      by_cases hauth : destroyRoomAuthorized room authUserId = true
      · simp [hauth]
      · simp only [Bool.not_eq_true] at hauth
        simp [hauth]
  · intro room _ hauth
    unfold destroyRoomAuthorized at hauth
    cases howner : room.ownerId with
    | none => rw [howner] at hauth; cases authUserId <;> simp at hauth
    | some owner =>
      cases hathu : authUserId with
      | none => rw [howner, hathu] at hauth; simp at hauth
      | some auth =>
        rw [howner, hathu] at hauth
        simp only [Bool.and_eq_true, beq_iff_eq] at hauth
        rw [hauth.2]
  · unfold adminCloseRoomHandler
    cases hfind : getRoomByCode st roomId with
    | none => simp
    | some room =>
      by_cases htok : verifyRoomToken decodedToken roomId = true
      · simp [htok]
      · simp only [Bool.not_eq_true] at htok
        simp [htok]

/-- Witness for `destroy_auth_amended` at a concrete input: a non-owner
caller is rejected by `destroy_room` and leaves the store unchanged. -/
theorem destroy_auth_amended_witness :
    (destroyRoomHandler aliceState "1234" (some "mallory")).1 = aliceState :=
  (destroy_auth_amended aliceState "1234" (some "mallory") none).2.1
    (by decide)

/-! ## Message deletion entry points (claim C3) -/

/-- Outcome of a message-delete handler invocation. -/
inductive MsgDelOutcome where
  | msgNotFound
  | roomNotFound
  | unauthorized
  | softDeleted
  | hardDeleted
  deriving DecidableEq, Repr

/-- The placeholder written when an owner soft-deletes another's message. -/
def adminDeletePlaceholder : String := "[Message deleted by admin]"

/-- The owner check used by both delete handlers:
`room.ownerId && room.ownerId === authUserId` (a JS truthiness test, so an
absent or empty `ownerId` fails). -/
def roomOwnerMatches (room : RoomRec) (authUserId : String) : Bool :=
  match room.ownerId with
  | some owner => !owner.isEmpty && owner == authUserId
  | none => false

/-- The `deleteMessage` socket handler (`socket/handlers.ts`): fetch the
message and the room; reject unless the caller is the author or the room's
verified owner; an owner deleting another's message gets a soft delete
(`deletedByAdmin := true`, placeholder content, `type` forced to text,
`fileMeta` unset); an author gets a hard delete. -/
def deleteMessageHandler (st : ChatState) (messageId roomId authUserId : String) :
    ChatState × MsgDelOutcome :=
  match st.messages.find? (fun m => m.id == messageId) with
  | none => (st, .msgNotFound)
  | some msg =>
    match getRoomByCode st roomId with
    | none => (st, .roomNotFound)
    | some room =>
      let isAdmin := roomOwnerMatches room authUserId
      let isOwn := msg.userId == authUserId
      if !(isOwn || isAdmin) then (st, .unauthorized)
      else if isAdmin && !isOwn then
        ({ st with messages := st.messages.map (fun m =>
            if m.id == messageId then
              { m with deletedByAdmin := true,
                       content := adminDeletePlaceholder,
                       type := .text,
                       fileMeta := none }
            else m) }, .softDeleted)
      else
        ({ st with messages := st.messages.filter (fun m => m.id != messageId) },
         .hardDeleted)

/-- The snake_case `delete_message` socket handler (`socket/handlers.ts`):
same fetches and the same permission check as `deleteMessage`, but the
action is always `MessageModel.deleteOne` — a hard delete — even when the
caller is the room owner and not the author. -/
def deleteMessageSnakeHandler (st : ChatState) (messageId roomId authUserId : String) :
    ChatState × MsgDelOutcome :=
  match st.messages.find? (fun m => m.id == messageId) with
  | none => (st, .msgNotFound)
  | some msg =>
    match getRoomByCode st roomId with
    | none => (st, .roomNotFound)
    | some room =>
      let canDelete := msg.userId == authUserId || roomOwnerMatches room authUserId
      if !canDelete then (st, .unauthorized)
      else
        ({ st with messages := st.messages.filter (fun m => m.id != messageId) },
         .hardDeleted)

/-- A store whose single message was authored by `"bob"` in Alice's room. -/
def bobMessageState : ChatState :=
  { rooms := [aliceRoom],
    messages := [{ id := "m2", roomCode := "1234", userId := "bob",
                   nickname := "Bob", content := "hi", type := .text,
                   fileMeta := none, deletedByAdmin := false,
                   createdAt := 1700000000000 }] }

/-- C3: the soft-delete rule does not hold at every message-delete entry
point.  When the room's verified owner (`"alice"`, not the author) deletes
Bob's message through the `delete_message` entry point, the record is
removed from the store entirely instead of being retained with
`deletedByAdmin = true` and placeholder content. -/
theorem delete_message_counterexample :
    (deleteMessageSnakeHandler bobMessageState "m2" "1234" "alice").2
        = .hardDeleted ∧
    (deleteMessageSnakeHandler bobMessageState "m2" "1234" "alice").1.messages
        = [] ∧
    roomOwnerMatches aliceRoom "alice" = true ∧
    ("alice" : String) ≠ "bob" := by
  refine ⟨by decide, by decide, by decide, by decide⟩

/-- C3 (amended): the claimed author/owner/other behaviour holds at the
`deleteMessage` entry point — the author's delete removes the record, the
owner's delete of another's message retains it with `deletedByAdmin = true`,
placeholder content and no file metadata, and anyone else is rejected with
the store unchanged — while the `delete_message` entry point performs a
hard delete for the owner as well; its rejection branch also leaves the
store unchanged. -/
theorem delete_message_amended (st : ChatState) (messageId roomId authUserId : String)
    (msg : MsgRec) (room : RoomRec)
    (hmsg : st.messages.find? (fun m => m.id == messageId) = some msg)
    (hroom : getRoomByCode st roomId = some room) :
    (msg.userId = authUserId →
      deleteMessageHandler st messageId roomId authUserId =
        ({ st with messages := st.messages.filter (fun m => m.id != messageId) },
         .hardDeleted)) ∧
    (msg.userId ≠ authUserId → roomOwnerMatches room authUserId = true →
      deleteMessageHandler st messageId roomId authUserId =
        ({ st with messages := st.messages.map (fun m =>
            if m.id == messageId then
              { m with deletedByAdmin := true,
                       content := adminDeletePlaceholder,
                       type := .text,
                       fileMeta := none }
            else m) }, .softDeleted)) ∧
    (msg.userId ≠ authUserId → roomOwnerMatches room authUserId = false →
      deleteMessageHandler st messageId roomId authUserId = (st, .unauthorized)) ∧
    ((msg.userId = authUserId ∨ roomOwnerMatches room authUserId = true) →
      deleteMessageSnakeHandler st messageId roomId authUserId =
        ({ st with messages := st.messages.filter (fun m => m.id != messageId) },
         .hardDeleted)) ∧
    (msg.userId ≠ authUserId → roomOwnerMatches room authUserId = false →
      deleteMessageSnakeHandler st messageId roomId authUserId = (st, .unauthorized)) := by
  refine ⟨?_, ?_, ?_, ?_, ?_⟩
  · intro hown
    unfold deleteMessageHandler
    rw [hmsg, hroom]
    simp [hown]
  · intro hnot hadmin
    unfold deleteMessageHandler
    rw [hmsg, hroom]
    have hne : (msg.userId == authUserId) = false := by
      simp [hnot]
    simp [hne, hadmin]
  · intro hnot hadmin
    unfold deleteMessageHandler
    rw [hmsg, hroom]
    have hne : (msg.userId == authUserId) = false := by
      simp [hnot]
    simp [hne, hadmin]
  · intro hcan
    unfold deleteMessageSnakeHandler
    rw [hmsg, hroom]
    rcases hcan with hown | hadmin
    · simp [hown]
    · simp [hadmin]
  · intro hnot hadmin
    unfold deleteMessageSnakeHandler
    rw [hmsg, hroom]
    have hne : (msg.userId == authUserId) = false := by
      simp [hnot]
    simp [hne, hadmin]

/-- Witness for `delete_message_amended` at a concrete input: the owner's
delete of Bob's message through `deleteMessage` soft-deletes it. -/
theorem delete_message_amended_witness :
    deleteMessageHandler bobMessageState "m2" "1234" "alice" =
      ({ bobMessageState with messages := bobMessageState.messages.map (fun m =>
          if m.id == "m2" then
            { m with deletedByAdmin := true,
                     content := adminDeletePlaceholder,
                     type := .text,
                     fileMeta := none }
          else m) }, .softDeleted) :=
  (delete_message_amended bobMessageState "m2" "1234" "alice"
      { id := "m2", roomCode := "1234", userId := "bob", nickname := "Bob",
        content := "hi", type := .text, fileMeta := none,
        deletedByAdmin := false, createdAt := 1700000000000 }
      aliceRoom (by decide) (by decide)).2.1 (by decide) (by decide)

/-! ## Auto-vanish sweep and recovery selection (claim C4) -/

/-- One hour in milliseconds. -/
def hourMs : Int := 3600000

/-- `AUTO_VANISH_HOURS` of `autoVanishService.ts`. -/
def autoVanishHours : Int := 24

/-- The Mongo filter of `processAutoVanish`:
`isLocked: true`, `lockedAt` exists and is `$lt` now minus 24 hours,
`isEnded: $ne true`, `expiresAt: $gt now`. -/
def autoVanishQuery (now : Int) (r : RoomRec) : Bool :=
  r.isLocked &&
  (match r.lockedAt with
   | some t => decide (t < now - autoVanishHours * hourMs)
   | none => false) &&
  !r.isEnded &&
  decide (now < r.expiresAt)

/-- The Mongo filter of `recoverStuckRooms`: the same conditions as
`autoVanishQuery` minus the `expiresAt: $gt now` exclusion. -/
def recoveryQuery (now : Int) (r : RoomRec) : Bool :=
  r.isLocked &&
  (match r.lockedAt with
   | some t => decide (t < now - autoVanishHours * hourMs)
   | none => false) &&
  !r.isEnded

/-- `.limit(100)` of the periodic sweep. -/
def autoVanishBatchLimit : Nat := 100

/-- `.limit(500)` of the startup recovery pass. -/
def recoveryBatchLimit : Nat := 500

/-- The sweep-selection predicate as the specification words it. -/
def sweepSelectsSpec (now : Int) (r : RoomRec) : Prop :=
  r.isLocked = true ∧
  (∃ t, r.lockedAt = some t ∧ t < now - 24 * 3600000) ∧
  r.isEnded = false ∧
  now < r.expiresAt

/-- C4: the periodic sweep's query selects exactly the rooms that are
locked, with a `lockedAt` present and older than the 24-hour grace period,
not ended, and not yet naturally expired; the recovery query is the same
predicate with the natural-expiry exclusion dropped, and its batch cap is
500 against the sweep's 100. -/
theorem auto_vanish_selection (now : Int) (r : RoomRec) :
    (autoVanishQuery now r = true ↔ sweepSelectsSpec now r) ∧
    (autoVanishQuery now r = (recoveryQuery now r && decide (now < r.expiresAt))) ∧
    recoveryBatchLimit = 500 ∧
    autoVanishBatchLimit = 100 := by
  refine ⟨?_, ?_, rfl, rfl⟩
  · unfold autoVanishQuery sweepSelectsSpec autoVanishHours hourMs
    cases hl : r.lockedAt with
    | none =>
      simp [hl]
    | some t =>
      simp only [hl, Bool.and_eq_true, decide_eq_true_eq, Bool.not_eq_true']
      constructor
      · rintro ⟨⟨⟨hlock, ht⟩, hend⟩, hexp⟩
        exact ⟨hlock, ⟨t, rfl, ht⟩, hend, hexp⟩
      · rintro ⟨hlock, ⟨t', ht', hlt⟩, hend, hexp⟩
        have : t = t' := Option.some_injective _ ht'
        subst this
        exact ⟨⟨⟨hlock, hlt⟩, hend⟩, hexp⟩
  · unfold autoVanishQuery recoveryQuery
    cases r.lockedAt <;> simp [Bool.and_assoc]

/-- Witness for `auto_vanish_selection` at a concrete input: a room locked
26 hours ago with a future expiry is selected by the sweep. -/
theorem auto_vanish_selection_witness :
    sweepSelectsSpec 1700100000000
      { code := "9999", ownerId := some "alice", name := none,
        isPublic := false, isLocked := true,
        lockedAt := some (1700100000000 - 26 * 3600000), isEnded := false,
        expiresAt := 1700200000000, participants := [] } :=
  (auto_vanish_selection 1700100000000
      { code := "9999", ownerId := some "alice", name := none,
        isPublic := false, isLocked := true,
        lockedAt := some (1700100000000 - 26 * 3600000), isEnded := false,
        expiresAt := 1700200000000, participants := [] }).1.mp (by decide)

/-! ## Lock idempotence on the owner-leave path (claim C7) -/

/-- `lockRoom` of `roomService`: set `isLocked := true` and stamp
`lockedAt` with the current time. -/
def lockRoomUpdate (r : RoomRec) (now : Int) : RoomRec :=
  { r with isLocked := true, lockedAt := some now }

/-- The lock step of the `leave_room` handler: if the leaving caller is the
verified owner and the room is neither locked nor ended, lock the room and
post the system message announcing the lock (the returned `Bool`); in every
other case the room record is untouched and no message is posted. -/
def ownerLeaveLockStep (r : RoomRec) (authUserId : Option String) (now : Int) :
    RoomRec × Bool :=
  let ownerMatches :=
    match r.ownerId, authUserId with
    | some owner, some auth => !owner.isEmpty && owner == auth
    | _, _ => false
  if ownerMatches && !r.isLocked && !r.isEnded then
    (lockRoomUpdate r now, true)
  else
    (r, false)

/-- C7: applying the owner-leave lock step to an already-locked room is a
no-op at the effect level — `lockedAt` is not re-stamped, no second system
message is posted, and every other room field is unchanged, because the
handler's guard requires `!room.isLocked`. -/
theorem lock_idempotent (r : RoomRec) (authUserId : Option String) (now : Int)
    (h : r.isLocked = true) :
    ownerLeaveLockStep r authUserId now = (r, false) := by
  unfold ownerLeaveLockStep
  simp [h]

/-- Witness for `lock_idempotent` at a concrete input: leaving an
already-locked room changes nothing and posts nothing. -/
theorem lock_idempotent_witness :
    ownerLeaveLockStep (lockRoomUpdate aliceRoom 1700000000000) (some "alice")
        1700050000000
      = (lockRoomUpdate aliceRoom 1700000000000, false) :=
  lock_idempotent (lockRoomUpdate aliceRoom 1700000000000) (some "alice")
    1700050000000 (by decide)

/-! ## Startup ordering of recovery and the first sweep (claim C5)

`startAutoVanishWorker` calls `recoverStuckRooms().catch(...)` and then
`processAutoVanish().catch(...)`: both are fire-and-forget, neither is
awaited.  Under the event loop, each routine is a sequence of synchronous
segments separated by `await`s (the database query alone forces at least
two segments per routine).  The first segment of `recoverStuckRooms` runs
synchronously before `processAutoVanish` is even called, but after that
first suspension the two routines' remaining segments interleave freely.
We model an execution as any interleaving of the two segment sequences in
which recovery's first segment comes first. -/

/-- One synchronous segment of a worker routine, identified by its index
within that routine. -/
inductive WorkerStep where
  | recovery (i : Nat)
  | sweep (i : Nat)
  deriving DecidableEq, Repr

instance : BEq WorkerStep := ⟨fun a b => decide (a = b)⟩

/-- `Interleave as bs cs`: `cs` is a merge of `as` and `bs` that preserves
the internal order of each — the event-loop schedules of two concurrently
pending promise chains. -/
inductive Interleave : List WorkerStep → List WorkerStep → List WorkerStep → Prop where
  | nil : Interleave [] [] []
  | left {a : WorkerStep} {as bs cs : List WorkerStep} :
      Interleave as bs cs → Interleave (a :: as) bs (a :: cs)
  | right {b : WorkerStep} {as bs cs : List WorkerStep} :
      Interleave as bs cs → Interleave as (b :: bs) (b :: cs)

/-- The recovery routine as `rn` synchronous segments. -/
def recoveryTask (rn : Nat) : List WorkerStep :=
  (List.range rn).map WorkerStep.recovery

/-- The first sweep as `sn` synchronous segments. -/
def sweepTask (sn : Nat) : List WorkerStep :=
  (List.range sn).map WorkerStep.sweep

/-- The executions `startAutoVanishWorker` can produce: recovery's first
segment runs synchronously before the sweep is called, and the remaining
segments of both routines interleave freely because neither call is
awaited. -/
def IsStartupTrace (rn sn : Nat) (t : List WorkerStep) : Prop :=
  ∃ t', t = WorkerStep.recovery 0 :: t' ∧
    Interleave ((recoveryTask rn).drop 1) (sweepTask sn) t'

/-- Index of the first occurrence of a segment in a trace. -/
def stepIdx : List WorkerStep → WorkerStep → Option Nat
  | [], _ => none
  | x :: xs, s => if x = s then some 0 else (stepIdx xs s).map (· + 1)

/-- Segment `a` runs strictly before segment `b` in the trace. -/
def stepBefore (t : List WorkerStep) (a b : WorkerStep) : Bool :=
  match stepIdx t a, stepIdx t b with
  | some i, some j => decide (i < j)
  | _, _ => false

/-- C5: the first sweep can begin while the recovery pass is still in
progress.  With recovery split into two segments by its database `await`
and the sweep as a single segment, the trace recovery₀, sweep₀, recovery₁
is a possible startup execution, and in it the sweep's first segment runs
strictly before recovery's last segment — refuting the claim that no sweep
iteration starts while recovery is in progress. -/
theorem startup_order_counterexample :
    IsStartupTrace 2 1
      [WorkerStep.recovery 0, WorkerStep.sweep 0, WorkerStep.recovery 1] ∧
    stepBefore
      [WorkerStep.recovery 0, WorkerStep.sweep 0, WorkerStep.recovery 1]
      (WorkerStep.sweep 0) (WorkerStep.recovery 1) = true := by
  constructor
  · refine ⟨[WorkerStep.sweep 0, WorkerStep.recovery 1], rfl, ?_⟩
    have h0 : Interleave [WorkerStep.recovery 1] [] [WorkerStep.recovery 1] :=
      Interleave.left Interleave.nil
    exact Interleave.right h0
  · decide

/-- In an interleaving, each element of the result occurred in one of the
two inputs. -/
theorem interleave_mem {as bs cs : List WorkerStep}
    (h : Interleave as bs cs) :
    ∀ s ∈ cs, s ∈ as ∨ s ∈ bs := by
  induction h with
  | nil => intro s hs; cases hs
  | left _ ih =>
    intro s hs
    rcases List.mem_cons.mp hs with rfl | hs'
    · exact Or.inl (List.mem_cons_self _ _)
    · rcases ih s hs' with h1 | h2
      · exact Or.inl (List.mem_cons_of_mem _ h1)
      · exact Or.inr h2
  | right _ ih =>
    intro s hs
    rcases List.mem_cons.mp hs with rfl | hs'
    · exact Or.inr (List.mem_cons_self _ _)
    · rcases ih s hs' with h1 | h2
      · exact Or.inl h1
      · exact Or.inr (List.mem_cons_of_mem _ h2)

/-- An interleaving's element count is the sum of its inputs' counts. -/
theorem interleave_count {as bs cs : List WorkerStep}
    (h : Interleave as bs cs) (s : WorkerStep) :
    cs.count s = as.count s + bs.count s := by
  induction h with
  | nil => rfl
  | left _ ih =>
    rename_i a _ _ _ _
    by_cases hsa : a = s
    · subst hsa
      simp [List.count_cons_self, ih, Nat.add_right_comm]
    · rw [List.count_cons_of_ne (fun hc => hsa hc.symm),
        List.count_cons_of_ne (fun hc => hsa hc.symm), ih]
  | right _ ih =>
    rename_i b _ _ _ _
    by_cases hsb : b = s
    · subst hsb
      simp only [List.count_cons_self, ih]
      omega
    · rw [List.count_cons_of_ne (fun hc => hsb hc.symm),
        List.count_cons_of_ne (fun hc => hsb hc.symm), ih]

/-- A segment that occurs in a trace has an index in it. -/
theorem stepIdx_isSome_of_mem {t : List WorkerStep} {s : WorkerStep}
    (h : s ∈ t) : (stepIdx t s).isSome = true := by
  induction t with
  | nil => cases h
  | cons x xs ih =>
    unfold stepIdx
    by_cases hx : x = s
    · simp [hx]
    · rcases List.mem_cons.mp h with rfl | hmem
      · exact absurd rfl hx
      · obtain ⟨k, hk⟩ := Option.isSome_iff_exists.mp (ih hmem)
        simp [hx, hk]

/-- C5 (amended): in every possible startup execution, the recovery pass is
started exactly once (its first segment occurs exactly once in the trace)
and it is started before any segment of the first sweep runs; but the sweep
is not gated on recovery's completion, so later recovery segments may run
while recovery is still in progress (as the counterexample shows). -/
theorem startup_order_amended (n sn : Nat) (t : List WorkerStep)
    (h : IsStartupTrace (n + 1) sn t) :
    t.count (WorkerStep.recovery 0) = 1 ∧
    ∀ j, WorkerStep.sweep j ∈ t →
      stepBefore t (WorkerStep.recovery 0) (WorkerStep.sweep j) = true := by
  obtain ⟨t', rfl, hint⟩ := h
  constructor
  · rw [List.count_cons_self, interleave_count hint]
    have hdrop : (recoveryTask (n + 1)).drop 1 =
        (List.range n).map (fun i => WorkerStep.recovery (i + 1)) := by
      unfold recoveryTask
      rw [List.range_succ_eq_map]
      simp [List.map_map, Function.comp]
    have h1 : ((recoveryTask (n + 1)).drop 1).count (WorkerStep.recovery 0) = 0 := by
      rw [hdrop, List.count_eq_zero]
      intro hmem
      rcases List.mem_map.mp hmem with ⟨i, _, hEq⟩
      exact Nat.succ_ne_zero i (WorkerStep.recovery.injEq _ _ ▸ hEq)
    have h2 : (sweepTask sn).count (WorkerStep.recovery 0) = 0 := by
      rw [List.count_eq_zero]
      intro hmem
      rcases List.mem_map.mp hmem with ⟨i, _, hEq⟩
      cases hEq
    rw [h1, h2]
  · intro j hj
    have hjne : WorkerStep.sweep j ≠ WorkerStep.recovery 0 := by
      intro hc; cases hc
    have hj' : WorkerStep.sweep j ∈ t' := by
      rcases List.mem_cons.mp hj with hc | hmem
      · exact absurd hc hjne
      · exact hmem
    have hsome := stepIdx_isSome_of_mem hj'
    obtain ⟨k, hk⟩ := Option.isSome_iff_exists.mp hsome
    unfold stepBefore
    have hidx0 : stepIdx (WorkerStep.recovery 0 :: t') (WorkerStep.recovery 0)
        = some 0 := by
      unfold stepIdx
      simp
    have hidxj : stepIdx (WorkerStep.recovery 0 :: t') (WorkerStep.sweep j)
        = some (k + 1) := by
      unfold stepIdx
      rw [if_neg (fun hc => hjne hc.symm), hk]
      rfl
    rw [hidx0, hidxj]
    simp

/-- Witness for `startup_order_amended` at a concrete input: in the
two-segment-recovery, one-segment-sweep execution where the sweep runs
between the recovery segments, recovery's first segment still occurs
exactly once and precedes the sweep segment. -/
theorem startup_order_amended_witness :
    ([WorkerStep.recovery 0, WorkerStep.sweep 0, WorkerStep.recovery 1] :
        List WorkerStep).count (WorkerStep.recovery 0) = 1 ∧
    stepBefore
      [WorkerStep.recovery 0, WorkerStep.sweep 0, WorkerStep.recovery 1]
      (WorkerStep.recovery 0) (WorkerStep.sweep 0) = true := by
  have h := startup_order_amended 1 1
    [WorkerStep.recovery 0, WorkerStep.sweep 0, WorkerStep.recovery 1]
    ⟨[WorkerStep.sweep 0, WorkerStep.recovery 1], rfl,
      Interleave.right (Interleave.left Interleave.nil)⟩
  exact ⟨h.1, h.2 0 (by decide)⟩

/-! ## Text-message send idempotency (claim C6) -/

/-- The text-duplicate window of the `sendMessage` handler, milliseconds. -/
def textDupWindowMs : Int := 5000

/-- Whether a stored message matches a (room, sender, text content) triple:
the time-independent part of the idempotency query. -/
def matchesTextSend (roomCode userId content : String) (m : MsgRec) : Bool :=
  m.roomCode == roomCode && m.userId == userId &&
  m.type == MsgType.text && m.content == content

/-- The idempotency lookup of the `sendMessage` handler for text messages:
`MessageModel.findOne` with the same room, sender, type text, identical
content, and `createdAt` at least `Date.now() - 5000`. -/
def findRecentTextDuplicate (store : List MsgRec) (roomCode userId content : String)
    (now : Int) : Option MsgRec :=
  store.find? (fun m =>
    matchesTextSend roomCode userId content m &&
    decide (now - textDupWindowMs ≤ m.createdAt))

/-- The text branch of the `sendMessage` handler after validation: if a
recent duplicate exists, re-emit it and acknowledge its id without
inserting; otherwise persist a new message (via `createMessage`) and
acknowledge the new id. -/
def sendTextMessage (store : List MsgRec) (roomCode userId nickname content : String)
    (newId : String) (now : Int) : List MsgRec × String :=
  match findRecentTextDuplicate store roomCode userId content now with
  | some m => (store, m.id)
  | none =>
    (store ++ [{ id := newId, roomCode := roomCode, userId := userId,
                 nickname := nickname, content := content, type := .text,
                 fileMeta := none, deletedByAdmin := false, createdAt := now }],
     newId)

/-- Number of stored messages matching a (room, sender, content) triple. -/
def textMatchCount (store : List MsgRec) (roomCode userId content : String) : Nat :=
  (store.filter (matchesTextSend roomCode userId content)).length

/-- A store with no matching message yields no recent duplicate. -/
theorem findRecentTextDuplicate_eq_none_of_clean
    {store : List MsgRec} {roomCode userId content : String} (now : Int)
    (h : textMatchCount store roomCode userId content = 0) :
    findRecentTextDuplicate store roomCode userId content now = none := by
  unfold textMatchCount at h
  unfold findRecentTextDuplicate
  rw [List.find?_eq_none]
  intro m hm
  have hall := List.filter_eq_nil_iff.mp (List.length_eq_zero.mp h) m hm
  simp only [Bool.not_eq_true] at hall
  simp [hall]

/-- C6: starting from a store holding no message with the given room,
sender and text content, a first send at `t1` stores exactly one matching
message; a second identical send strictly within 5 seconds stores nothing
new and acknowledges the first message's id; and a further identical send
more than 6 seconds after the first results in a second stored matching
message. -/
theorem send_text_idempotency
    (store : List MsgRec) (roomCode userId nickname content id1 id2 id3 : String)
    (t1 t2 t3 : Int)
    (hclean : textMatchCount store roomCode userId content = 0)
    (h21 : t1 ≤ t2) (h2w : t2 - t1 < 5000) (h3w : 6000 < t3 - t1) :
    textMatchCount
        (sendTextMessage store roomCode userId nickname content id1 t1).1
        roomCode userId content = 1 ∧
    sendTextMessage
        (sendTextMessage store roomCode userId nickname content id1 t1).1
        roomCode userId nickname content id2 t2 =
      ((sendTextMessage store roomCode userId nickname content id1 t1).1, id1) ∧
    textMatchCount
        (sendTextMessage
          (sendTextMessage store roomCode userId nickname content id1 t1).1
          roomCode userId nickname content id3 t3).1
        roomCode userId content = 2 := by
  have hnone1 := findRecentTextDuplicate_eq_none_of_clean t1 hclean
  set msg1 : MsgRec :=
    { id := id1, roomCode := roomCode, userId := userId, nickname := nickname,
      content := content, type := .text, fileMeta := none,
      deletedByAdmin := false, createdAt := t1 } with hmsg1
  have hstep1 : sendTextMessage store roomCode userId nickname content id1 t1 =
      (store ++ [msg1], id1) := by
    unfold sendTextMessage
    rw [hnone1]
  have hmatch1 : matchesTextSend roomCode userId content msg1 = true := by
    simp [matchesTextSend, hmsg1]
  have hfilter : ∀ now' : Int,
      store.find? (fun m =>
        matchesTextSend roomCode userId content m &&
        decide (now' - textDupWindowMs ≤ m.createdAt)) = none := by
    intro now'
    rw [List.find?_eq_none]
    intro m hm
    have hall := List.filter_eq_nil_iff.mp
      (List.length_eq_zero.mp (by exact hclean)) m hm
    simp only [Bool.not_eq_true] at hall
    simp [hall]
  have hcount1 : textMatchCount (store ++ [msg1]) roomCode userId content = 1 := by
    unfold textMatchCount
    rw [List.filter_append]
    have h0 : store.filter (matchesTextSend roomCode userId content) = [] := by
      exact List.length_eq_zero.mp hclean
    rw [h0]
    simp [hmatch1]
  refine ⟨by rw [hstep1]; exact hcount1, ?_, ?_⟩
  · rw [hstep1]
    unfold sendTextMessage findRecentTextDuplicate
    have hfind2 : (store ++ [msg1]).find? (fun m =>
        matchesTextSend roomCode userId content m &&
        decide (t2 - textDupWindowMs ≤ m.createdAt)) = some msg1 := by
      rw [List.find?_append, hfilter t2]
      have htime : (decide (t2 - textDupWindowMs ≤ msg1.createdAt)) = true := by
        simp only [hmsg1, decide_eq_true_eq]
        unfold textDupWindowMs
        omega
      have hp : (matchesTextSend roomCode userId content msg1 &&
          decide (t2 - textDupWindowMs ≤ msg1.createdAt)) = true := by
        rw [hmatch1, htime]
        rfl
      rw [Option.none_or]
      exact List.find?_cons_of_pos _ hp
    rw [hfind2]
  · rw [hstep1]
    unfold sendTextMessage findRecentTextDuplicate
    have hfind3 : (store ++ [msg1]).find? (fun m =>
        matchesTextSend roomCode userId content m &&
        decide (t3 - textDupWindowMs ≤ m.createdAt)) = none := by
      rw [List.find?_append, hfilter t3]
      have htime : (decide (t3 - textDupWindowMs ≤ msg1.createdAt)) = false := by
        simp only [hmsg1, decide_eq_false_iff_not]
        unfold textDupWindowMs
        omega
      have hp : (matchesTextSend roomCode userId content msg1 &&
          decide (t3 - textDupWindowMs ≤ msg1.createdAt)) = false := by
        rw [htime, Bool.and_false]
      rw [Option.none_or]
      rw [List.find?_cons_of_neg _ (by rw [hp]; exact Bool.false_ne_true)]
      rfl
    rw [hfind3]
    unfold textMatchCount
    simp only [List.filter_append]
    have h0 : store.filter (matchesTextSend roomCode userId content) = [] := by
      exact List.length_eq_zero.mp hclean
    rw [h0]
    have hmatch3 : matchesTextSend roomCode userId content
        { id := id3, roomCode := roomCode, userId := userId,
          nickname := nickname, content := content, type := .text,
          fileMeta := none, deletedByAdmin := false, createdAt := t3 } = true := by
      simp [matchesTextSend]
    simp [hmatch1, hmatch3]

/-- Witness for `send_text_idempotency` at concrete inputs: an empty store,
a first send at time 0, a retransmit at 3 seconds and a repeat at 7
seconds. -/
theorem send_text_idempotency_witness :
    textMatchCount
        (sendTextMessage
          (sendTextMessage [] "1234" "alice" "Alice" "hello" "a1" 0).1
          "1234" "alice" "Alice" "hello" "a3" 7000).1
        "1234" "alice" "hello" = 2 :=
  (send_text_idempotency [] "1234" "alice" "Alice" "hello" "a1" "a2" "a3"
    0 3000 7000 (by decide) (by omega) (by omega) (by omega)).2.2

/-! ## Rate limiter (claim C8)

The limiter keeps one fixed-window counter per (subject, action) key in the
ephemeral store.  We model a single key's state: the store may be
unavailable, the increment may error, or the counter holds the count of
requests already admitted to the current window. -/

/-- The ephemeral store as seen through one rate-limit key. -/
inductive RedisCounter where
  | unavailable
  | errored
  | window (prev : Nat)
  deriving DecidableEq, Repr

/-- `socketRateLimiter` (`middleware/rateLimiter.ts`): if the store is
unavailable or the increment throws, allow (fail open); otherwise
atomically increment and allow exactly when the post-increment count is at
most the ceiling. -/
def socketRateLimiter (redis : RedisCounter) (maxRequests : Nat) :
    Bool × RedisCounter :=
  match redis with
  | .unavailable => (true, .unavailable)
  | .errored => (true, .errored)
  | .window prev => (decide (prev + 1 ≤ maxRequests), .window (prev + 1))

/-- An HTTP rate-limit configuration from `RATE_LIMITS`. -/
structure RateLimitConfig where
  windowMs : Nat
  maxRequests : Nat
  deriving DecidableEq, Repr

/-- `RATE_LIMITS.createRoom`: 5 room creations per minute per caller. -/
def rateLimitCreateRoom : RateLimitConfig := { windowMs := 60000, maxRequests := 5 }

/-- `RATE_LIMITS.adminAction`: 10 generic admin actions per minute. -/
def rateLimitAdminAction : RateLimitConfig := { windowMs := 60000, maxRequests := 10 }

/-- The `sendMessage` handler's limiter call: 30 messages per minute. -/
def sendMessageLimit : Nat := 30

/-- The `sendMessage` handler's limiter window in milliseconds. -/
def sendMessageWindowMs : Nat := 60000

/-- The `sendFileMeta` handler's limiter call: 10 file shares per minute. -/
def sendFileMetaLimit : Nat := 10

/-- The `sendFileMeta` handler's limiter window in milliseconds. -/
def sendFileMetaWindowMs : Nat := 60000

/-- The express `rateLimiter` middleware (`middleware/rateLimiter.ts`):
identical admission logic driven by a `RateLimitConfig`. -/
def rateLimiterMiddleware (redis : RedisCounter) (config : RateLimitConfig) :
    Bool × RedisCounter :=
  socketRateLimiter redis config.maxRequests

/-- C8: a request on a live counter is rejected exactly when the
post-increment count exceeds the ceiling; an unavailable or erroring
ephemeral store admits every request (fail open); and the configured
ceilings are 30 messages, 10 file shares, 5 room creations and 10 generic
admin actions per one-minute window. -/
theorem rate_limiter_spec (prev maxRequests : Nat) :
    ((socketRateLimiter (.window prev) maxRequests).1 = false ↔
      maxRequests < prev + 1) ∧
    (socketRateLimiter (.window prev) maxRequests).2 = .window (prev + 1) ∧
    (socketRateLimiter .unavailable maxRequests).1 = true ∧
    (socketRateLimiter .errored maxRequests).1 = true ∧
    sendMessageLimit = 30 ∧ sendMessageWindowMs = 60000 ∧
    sendFileMetaLimit = 10 ∧ sendFileMetaWindowMs = 60000 ∧
    rateLimitCreateRoom = { windowMs := 60000, maxRequests := 5 } ∧
    rateLimitAdminAction = { windowMs := 60000, maxRequests := 10 } ∧
    (∀ r : RedisCounter, rateLimiterMiddleware r rateLimitCreateRoom =
      socketRateLimiter r 5) := by
  refine ⟨?_, rfl, rfl, rfl, rfl, rfl, rfl, rfl, rfl, rfl, fun r => rfl⟩
  unfold socketRateLimiter
  simp only [decide_eq_false_iff_not, Nat.not_le]

/-- Witness for `rate_limiter_spec` at concrete inputs: the 31st message in
a window (30 already admitted) is rejected under the 30-per-minute ceiling,
by the post-increment test. -/
theorem rate_limiter_spec_witness :
    (socketRateLimiter (.window 30) sendMessageLimit).1 = false :=
  (rate_limiter_spec 30 sendMessageLimit).1.mpr (by decide)

/-! ## Nickname conflict resolution (claims C9 and C10)

`ensureNicknameUniqueInRoom` (`socket/handlers.ts`) builds a lowercased
union of nicknames from the live sockets, Redis and the message history,
then resolves the proposed nickname against it.  We model the union as the
list it accumulates, the stream of `Math.floor(Math.random() * 1000)` draws
as a list of naturals, and `Date.now()` as a natural. -/

/-- The model of JavaScript `toLowerCase()`: lowercase every character.
(`String.toLower` itself is avoided because its `mapAux` recursion does not
reduce; mapping over the character list is definitionally transparent.) -/
def lowerString (s : String) : String :=
  String.mk (s.data.map Char.toLower)

/-- `padStart(3, '0')` applied to a 3-digit random draw: the draw is below
1000 in the source, mirrored here by reducing modulo 1000. -/
def pad3 (n : Nat) : String :=
  let s := toString (n % 1000)
  if 3 ≤ s.length then s else String.mk (List.replicate (3 - s.length) '0') ++ s

/-- JavaScript `slice(-3)` on a string: its last three characters (the
whole string when shorter). -/
def sliceLast3 (s : String) : String :=
  s.drop (s.length - 3)

/-- How a nickname resolution returned: the base name was free, a random
3-digit suffix was free, or the loop exhausted its attempts and fell back
to the timestamp-derived suffix. -/
inductive ResolveOutcome where
  | baseFree (nickname : String)
  | suffixed (nickname : String)
  | fallback (nickname : String)
  deriving DecidableEq, Repr

/-- The nickname a resolution returned. -/
def ResolveOutcome.resolved : ResolveOutcome → String
  | .baseFree n => n
  | .suffixed n => n
  | .fallback n => n

/-- Whether the resolution took the timestamp fallback. -/
def ResolveOutcome.tookFallback : ResolveOutcome → Bool
  | .fallback _ => true
  | _ => false

/-- The retry loop of `ensureNicknameUniqueInRoom`: consume the random
draws in order, returning the first suffixed candidate whose lowercasing is
not in the union. -/
def resolveAttempts (ex : List String) (base : String) : List Nat → Option String
  | [] => none
  | r :: rs =>
    let candidate := base ++ "#" ++ pad3 r
    if ex.contains (lowerString candidate) then resolveAttempts ex base rs
    else some candidate

/-- `maxAttempts` of `ensureNicknameUniqueInRoom`. -/
def maxNicknameAttempts : Nat := 20

/-- `ensureNicknameUniqueInRoom` after the union has been gathered: return
the base name if its lowercasing is not in the union; otherwise try up to
20 random 3-digit suffixes; if all collide, return the base name suffixed
with the last three characters of `Date.now().toString()` — without
checking that fallback against the union. -/
def ensureNicknameUnique (ex : List String) (base : String)
    (draws : List Nat) (nowMs : Nat) : ResolveOutcome :=
  if ex.contains (lowerString base) then
    match resolveAttempts ex base (draws.take maxNicknameAttempts) with
    | some candidate => .suffixed candidate
    | none => .fallback (base ++ "#" ++ sliceLast3 (toString nowMs))
  else .baseFree base

/-- The union-gathering step of `ensureNicknameUniqueInRoom`, over the
merged entries (userId, nickname) of its three sources: entries of the
excluded requester, empty nicknames and the `Anonymous` placeholder are
skipped, and survivors are lowercased. -/
def buildNicknameUnion (entries : List (String × String))
    (excludeUserId : String) : List String :=
  (entries.filter (fun e =>
      e.fst != excludeUserId && !e.snd.isEmpty && e.snd != "Anonymous")).map
    (fun e => lowerString e.snd)

/-- A successful retry-loop candidate is never in the union. -/
theorem resolveAttempts_not_in_union (ex : List String) (base : String) :
    ∀ (rs : List Nat) (c : String),
      resolveAttempts ex base rs = some c → ex.contains (lowerString c) = false := by
  intro rs
  induction rs with
  | nil => intro c hc; cases hc
  | cons r rs ih =>
    intro c hc
    unfold resolveAttempts at hc
    by_cases hmem : ex.contains (lowerString (base ++ "#" ++ pad3 r)) = true
    · rw [if_pos hmem] at hc
      exact ih c hc
    · rw [if_neg hmem] at hc
      cases hc
      exact Bool.not_eq_true _ ▸ hmem

/-- Any non-fallback resolution result is absent from the union. -/
theorem resolve_nonfallback_not_in_union (ex : List String) (base : String)
    (draws : List Nat) (nowMs : Nat)
    (h : (ensureNicknameUnique ex base draws nowMs).tookFallback = false) :
    ex.contains (lowerString (ensureNicknameUnique ex base draws nowMs).resolved)
      = false := by
  unfold ensureNicknameUnique at h ⊢
  by_cases hbase : ex.contains (lowerString base) = true
  · rw [if_pos hbase] at h ⊢
    cases hres : resolveAttempts ex base (draws.take maxNicknameAttempts) with
    | none =>
      rw [hres] at h
      exact absurd h (by simp [ResolveOutcome.tookFallback])
    | some c =>
      exact resolveAttempts_not_in_union ex base _ c hres
  · rw [if_neg hbase]
    simpa using hbase

/-- C9: the timestamp fallback is not guaranteed unique.  With the union
containing `nova` and `nova#042`, every one of the twenty random attempts
drawing `42`, and the clock at `1700000000042`, the resolver exhausts its
attempts and returns the fallback `Nova#042` — which does occur
(case-insensitively) in the union of existing nicknames. -/
theorem nickname_fallback_counterexample :
    ensureNicknameUnique ["nova", "nova#042"] "Nova"
        (List.replicate 20 42) 1700000000042
      = .fallback "Nova#042" ∧
    (["nova", "nova#042"] : List String).contains
        (lowerString (ensureNicknameUnique ["nova", "nova#042"] "Nova"
          (List.replicate 20 42) 1700000000042).resolved) = true := by
  constructor
  · decide
  · decide

/-- C9 (amended): the resolver returns a free base name unchanged, retries
a random 3-digit suffix against the same union for exactly 20 attempts
(within the claimed 10–20 bound), and any base or suffixed result is indeed
absent from the union; but when all attempts collide, the fallback is the
base name suffixed with the last three characters of the current
millisecond timestamp, returned without any uniqueness check — it is
unique only if that particular name happens to be absent from the union. -/
theorem nickname_resolution_amended (ex : List String) (base : String)
    (draws : List Nat) (nowMs : Nat) :
    maxNicknameAttempts = 20 ∧
    (ex.contains (lowerString base) = false →
      ensureNicknameUnique ex base draws nowMs = .baseFree base) ∧
    (∀ c, ensureNicknameUnique ex base draws nowMs = .suffixed c →
      ex.contains (lowerString c) = false) ∧
    (∀ c, ensureNicknameUnique ex base draws nowMs = .fallback c →
      c = base ++ "#" ++ sliceLast3 (toString nowMs)) := by
  refine ⟨rfl, ?_, ?_, ?_⟩
  · intro hfree
    unfold ensureNicknameUnique
    rw [hfree]
    rfl
  · intro c hc
    unfold ensureNicknameUnique at hc
    by_cases hbase : ex.contains (lowerString base) = true
    · rw [if_pos hbase] at hc
      cases hres : resolveAttempts ex base (draws.take maxNicknameAttempts) with
      | none => rw [hres] at hc; cases hc
      | some c' =>
        rw [hres] at hc
        cases hc
        exact resolveAttempts_not_in_union ex base _ c hres
    · rw [if_neg hbase] at hc
      cases hc
  · intro c hc
    unfold ensureNicknameUnique at hc
    by_cases hbase : ex.contains (lowerString base) = true
    · rw [if_pos hbase] at hc
      cases hres : resolveAttempts ex base (draws.take maxNicknameAttempts) with
      | none =>
        rw [hres] at hc
        cases hc
        rfl
      | some c' => rw [hres] at hc; cases hc
    · rw [if_neg hbase] at hc
      cases hc

/-- Witness for `nickname_resolution_amended` at a concrete input: a free
base name is returned unchanged. -/
theorem nickname_resolution_amended_witness :
    ensureNicknameUnique ["zed"] "Nova" [7] 1700000000000
      = .baseFree "Nova" :=
  (nickname_resolution_amended ["zed"] "Nova" [7] 1700000000000).2.1
    (by decide)

/-- C10: two immediate successive resolutions for two different callers
over the same room state can yield the same nickname.  With the room
holding only `Zed`, callers `u1` and `u2` both proposing `Nova` see the
same union, and both resolutions return `Nova` unchanged — the first
caller's result is not yet visible in the state the second resolution
reads. -/
theorem nickname_distinctness_counterexample :
    buildNicknameUnion [("owner", "Zed")] "u1"
      = buildNicknameUnion [("owner", "Zed")] "u2" ∧
    (ensureNicknameUnique (buildNicknameUnion [("owner", "Zed")] "u1")
        "Nova" [7] 1700000000000).resolved
      = (ensureNicknameUnique (buildNicknameUnion [("owner", "Zed")] "u2")
        "Nova" [13] 1700000000001).resolved ∧
    ("u1" : String) ≠ "u2" := by
  refine ⟨by decide, by decide, by decide⟩

/-- C10 (amended): distinctness holds only once the first result is
registered — if the second caller's union already contains the first
caller's resolved nickname (case-insensitively) and the second resolution
does not take the timestamp fallback, then the second resolved nickname
differs from the first. -/
theorem nickname_distinct_when_registered (ex2 : List String)
    (base2 r1 : String) (draws2 : List Nat) (t2 : Nat)
    (hreg : ex2.contains (lowerString r1) = true)
    (hnf : (ensureNicknameUnique ex2 base2 draws2 t2).tookFallback = false) :
    (ensureNicknameUnique ex2 base2 draws2 t2).resolved ≠ r1 := by
  intro hEq
  have hfree := resolve_nonfallback_not_in_union ex2 base2 draws2 t2 hnf
  rw [hEq, hreg] at hfree
  cases hfree

/-- Witness for `nickname_distinct_when_registered` at a concrete input:
with `Nova` already registered, the second caller requesting `Nova`
resolves to a suffixed name different from `Nova`. -/
theorem nickname_distinct_when_registered_witness :
    (ensureNicknameUnique ["nova"] "Nova" [7] 1700000000000).resolved
      ≠ "Nova" :=
  nickname_distinct_when_registered ["nova"] "Nova" "Nova" [7] 1700000000000
    (by decide) (by decide)

end LinkChat
